import Mathlib

/-!
Verification development for the Hacxgent coding-assistant runtime.

Each definition below is a shallow embedding of one Python function or
class of the repository (file and symbol given in its doc comment).
Machine integers are modelled as Int/Nat, wall-clock times and float
fields as rationals, fallible code as Except/Option, and external
effects (filesystem, environment variables, the network stream) as
explicit function parameters.
-/

namespace Hacxgent

/-- Modelled from the spec: the message role enumeration of
hacxgent.core.types (the types module itself is not part of the sources
here); §3 fixes role ∈ \x7bsystem, user, assistant, tool\x7d. -/
inductive Role where
  | system
  | user
  | assistant
  | tool
deriving DecidableEq, Repr

/-- Modelled from the spec: the string value of a role, as used by
message serialisation (role.value in the backend adapter). -/
def Role.value : Role → String
  | .system => "system"
  | .user => "user"
  | .assistant => "assistant"
  | .tool => "tool"

/-- Modelled from the spec: constructing a Role from a string, as the
Python enum call Role(role_str) does; any string outside the four role
values raises, which the embedding records as an error. -/
def Role.ofString (s : String) : Except String Role :=
  if s = "system" then .ok .system
  else if s = "user" then .ok .user
  else if s = "assistant" then .ok .assistant
  else if s = "tool" then .ok .tool
  else .error s

/-- Modelled from the spec: the function fragment of a tool call
(opaque argument text, parsed later by the receiving tool). -/
structure FunctionCall where
  name : Option String := none
  arguments : Option String := none
deriving DecidableEq, Repr

/-- Modelled from the spec: a tool call with id, position index for
streaming reassembly, and function payload. -/
structure ToolCall where
  id : Option String := none
  index : Option Nat := none
  function : FunctionCall := {}
deriving DecidableEq, Repr

/-- Modelled from the spec: one conversation message (§3 data model). -/
structure LLMMessage where
  role : Role
  content : Option String := none
  reasoning_content : Option String := none
  tool_calls : Option (List ToolCall) := none
  tool_call_id : Option String := none
  name : Option String := none
deriving DecidableEq, Repr

/-- Modelled from the spec: prompt/completion token counts per backend
call. -/
structure LLMUsage where
  prompt_tokens : Nat := 0
  completion_tokens : Nat := 0
deriving DecidableEq, Repr

/-- Modelled from the spec: one (partial or full) backend response
chunk: a message plus an optional usage record. -/
structure LLMChunk where
  message : LLMMessage
  usage : Option LLMUsage := none
deriving DecidableEq, Repr

/-- A single-quote character, used to spell error messages of the
source without a quote character in a Lean string literal. -/
def squote : String := String.mk [Char.ofNat 39]

/-! ## Configuration (src/hacxgent/core/config.py) -/

/-- src/hacxgent/core/config.py, Backend enumeration. -/
inductive BackendKind where
  | hacxgent
  | generic
deriving DecidableEq, Repr

/-- src/hacxgent/core/config.py, ProviderConfig. -/
structure ProviderConfig where
  name : String
  api_base : String
  api_key_env_var : String := ""
  api_style : String := "openai"
  backend : BackendKind := .generic
  reasoning_field_name : String := "reasoning_content"
deriving DecidableEq, Repr

/-- src/hacxgent/core/config.py, ModelConfig (float fields as
rationals). -/
structure ModelConfig where
  name : String
  provider : String
  «alias» : String
  temperature : ℚ := 1/5
  input_price : ℚ := 0
  output_price : ℚ := 0
  rate_limit_rpm : ℤ := 0
  max_context_tokens : ℤ := 0
deriving DecidableEq, Repr

/-- The character class kept unchanged by the regular expression
[^a-zA-Z0-9_-] of _MCPBase.normalize_name: letters, digits, underscore
and hyphen. -/
def isWordChar (c : Char) : Bool :=
  (('a' ≤ c && c ≤ 'z') || ('A' ≤ c && c ≤ 'Z') ||
   ('0' ≤ c && c ≤ '9') || c == '_' || c == '-')

/-- re.sub of the pattern [^a-zA-Z0-9_-] with replacement _ : every
character outside the class becomes an underscore. -/
def reSubNonWord (s : String) : String :=
  String.mk (s.toList.map (fun c => if isWordChar c then c else '_'))

/-- Membership in the strip set of the Python call .strip of the
two characters underscore and hyphen. -/
def isStripSet (c : Char) : Bool := c == '_' || c == '-'

/-- Python str.strip with the two-character argument of underscore and
hyphen: removes those characters from both ends. -/
def pyStripUnderscoreHyphen (s : String) : String :=
  String.mk (((s.toList.dropWhile isStripSet).reverse.dropWhile isStripSet).reverse)

/-- src/hacxgent/core/config.py lines 161-166, _MCPBase.normalize_name:
substitute, strip, then truncate to 256 characters. -/
def normalize_name (v : String) : String :=
  String.mk ((pyStripUnderscoreHyphen (reSubNonWord v)).toList.take 256)

/-- src/hacxgent/core/config.py lines 337-347,
HacxgentConfig.get_active_model, as a function of the active_model
field and the models list; ValueError is modelled as Except.error
carrying the message text. -/
def get_active_model (active_model : String) (models : List ModelConfig) :
    Except String ModelConfig :=
  if active_model = "" then
    match models with
    | m :: _ => .ok m
    | [] => .error "No models configured."
  else
    match models.find? (fun m => m.«alias» == active_model) with
    | some m => .ok m
    | none =>
      if models.isEmpty then .error "No models configured."
      else
        .error ("Active model " ++ squote ++ active_model ++ squote ++
          " not found in configuration.")

/-- The exact duplicate-alias error text of
HacxgentConfig._validate_model_uniqueness. -/
def duplicate_alias_message (a : String) : String :=
  "Duplicate model alias found: " ++ squote ++ a ++ squote ++
    ". Aliases must be unique."

/-- The loop body of _validate_model_uniqueness: walk the models,
carrying the set of aliases seen so far. -/
def check_alias_uniqueness : List ModelConfig → List String → Except String Unit
  | [], _ => .ok ()
  | m :: rest, seen =>
    if m.«alias» ∈ seen then .error (duplicate_alias_message m.«alias»)
    else check_alias_uniqueness rest (m.«alias» :: seen)

/-- src/hacxgent/core/config.py lines 413-422,
HacxgentConfig._validate_model_uniqueness. -/
def validate_model_uniqueness (models : List ModelConfig) : Except String Unit :=
  check_alias_uniqueness models []

/-- Whitespace as recognised by the Python str.strip default and by
str.isspace, restricted to the code points that can appear here (ASCII
whitespace, the separator controls 28-30, NEL, NBSP and the usual
Unicode space characters). -/
def pyIsSpace (c : Char) : Bool :=
  c == ' ' || c == '\t' || c == '\n' || c == '\r' ||
  c.val == 11 || c.val == 12 ||
  c.val == 28 || c.val == 29 || c.val == 30 ||
  c.val == 133 || c.val == 160 || c.val == 5760 ||
  (8192 ≤ c.val && c.val ≤ 8202) ||
  c.val == 8232 || c.val == 8233 || c.val == 8239 ||
  c.val == 8287 || c.val == 12288

/-- Python str.strip with no argument: whitespace removed from both
ends. -/
def pyStrip (s : String) : String :=
  String.mk (((s.toList.dropWhile pyIsSpace).reverse.dropWhile pyIsSpace).reverse)

/-- One pass of the Python str.format scanner for a format string whose
only keyword argument is token: a doubled brace is an escaped literal
brace, the replacement field between braces must be exactly the name
token, and any other field or a stray closing brace raises (conversion
and format-spec suffixes inside a field are not modelled and count as a
failure, which the caller turns into the bare token). -/
def pyFormatTokenAux (token : String) : List Char → Option (List Char)
  | [] => some []
  | c :: rest =>
    if c = '{' then
      match rest with
      | '{' :: rest2 => (pyFormatTokenAux token rest2).map (fun t => '{' :: t)
      | 't' :: 'o' :: 'k' :: 'e' :: 'n' :: '}' :: rest2 =>
        (pyFormatTokenAux token rest2).map (fun t => token.toList ++ t)
      | _ => none
    else if c = '}' then
      match rest with
      | '}' :: rest2 => (pyFormatTokenAux token rest2).map (fun t => '}' :: t)
      | _ => none
    else (pyFormatTokenAux token rest).map (fun t => c :: t)

/-- fmt.format with keyword argument token equal to the given string:
none models a raised formatting exception. -/
def pyFormatToken (fmt token : String) : Option String :=
  (pyFormatTokenAux token fmt.toList).map String.mk

/-- The literal replacement field of the default format strings: an
opening brace, the name token, a closing brace. -/
def token_placeholder : String :=
  String.mk (Char.ofNat 123 :: ('t' :: 'o' :: 'k' :: 'e' :: 'n' :: [Char.ofNat 125]))

/-- The default of the api_key_format field: Bearer followed by the
token placeholder. -/
def default_api_key_format : String := "Bearer " ++ token_placeholder

/-- src/hacxgent/core/config.py, _MCPHttpFields (the headers dict is an
insertion-ordered association list with distinct keys, as a Python
dict). -/
structure MCPHttpFields where
  url : String
  headers : List (String × String) := []
  api_key_env : String := ""
  api_key_header : String := "Authorization"
  api_key_format : String := default_api_key_format
deriving DecidableEq, Repr

/-- The walrus condition of http_headers: the stripped api_key_env must
be a non-empty name and the environment lookup must produce a non-empty
token. -/
def tokenLookup (cfg : MCPHttpFields) (env : String → Option String) :
    Option String :=
  let env_var := pyStrip cfg.api_key_env
  if env_var = "" then none
  else
    match env env_var with
    | none => none
    | some t => if t = "" then none else some t

/-- The target header name of http_headers: the stripped
api_key_header, defaulting to Authorization when empty. -/
def targetHeader (cfg : MCPHttpFields) : String :=
  let t := pyStrip cfg.api_key_header
  if t = "" then "Authorization" else t

/-- Python str.lower, modelled characterwise with the ASCII lowering of
Char.toLower (the two agree on ASCII header names). -/
def pyLower (s : String) : String :=
  String.mk (s.toList.map Char.toLower)

/-- The collision test of http_headers: some configured header name
equals the target case-insensitively. -/
def hasHeaderCI (hdrs : List (String × String)) (target : String) : Bool :=
  hdrs.any (fun p => pyLower p.1 == pyLower target)

/-- The header value of http_headers: the format string (defaulting to
a bare token placeholder when empty) applied to the token, falling back
to the bare token when formatting raises. -/
def credential_value (fmt token : String) : String :=
  let f := if fmt = "" then token_placeholder else fmt
  match pyFormatToken f token with
  | some v => v
  | none => token

/-- Python dict item assignment on an insertion-ordered association
list: an existing key keeps its position and gets the new value, a new
key is appended. -/
def dictSet (l : List (String × String)) (k v : String) :
    List (String × String) :=
  if l.any (fun p => p.1 == k) then
    l.map (fun p => if p.1 == k then (k, v) else p)
  else l ++ [(k, v)]

/-- src/hacxgent/core/config.py lines 196-207,
_MCPHttpFields.http_headers; os.getenv is the env parameter. -/
def http_headers (cfg : MCPHttpFields) (env : String → Option String) :
    List (String × String) :=
  match tokenLookup cfg env with
  | none => cfg.headers
  | some token =>
    let target := targetHeader cfg
    if hasHeaderCI cfg.headers target then cfg.headers
    else dictSet cfg.headers target (credential_value cfg.api_key_format token)

/-- Pre-validation model data for ModelConfig._default_alias_to_name: a
missing alias key and an alias of None are both Option.none. -/
structure RawModelData where
  name : String
  «alias» : Option String := none
deriving DecidableEq, Repr

/-- src/hacxgent/core/config.py lines 251-257,
ModelConfig._default_alias_to_name (mode before): when alias is absent
or None it is set to the configured name. -/
def default_alias_to_name (d : RawModelData) : RawModelData :=
  match d.«alias» with
  | none => { d with «alias» := some d.name }
  | some _ => d

/-! ## Backend adapter (src/hacxgent/core/llm/backend/universal.py) -/

/-- Python truthiness-based choice between two optional strings, as in
the expression a or b: a is returned when it is a non-empty string,
otherwise b is returned as it stands. -/
def pyOrStr (a b : Option String) : Option String :=
  match a with
  | some s => if s = "" then b else some s
  | none => b

/-- A usage payload as read with getattr and a default of 0: an absent
attribute is Option.none. -/
structure UsageData where
  prompt_tokens : Option Nat := none
  completion_tokens : Option Nat := none
deriving DecidableEq, Repr

/-- A function payload of a raw tool call delta. -/
structure RawFunction where
  name : Option String := none
  arguments : Option String := none
deriving DecidableEq, Repr

/-- A raw tool call of a response choice. -/
structure RawToolCall where
  id : Option String := none
  index : Option Nat := none
  function : Option RawFunction := none
deriving DecidableEq, Repr

/-- The message or delta payload of a response choice; attributes read
with getattr and a None default are Option fields (the source conflates
an absent attribute with a None value through its defaults, and so does
the embedding). -/
structure MessageData where
  role : Option String := none
  content : Option String := none
  reasoning_content : Option String := none
  thought : Option String := none
  tool_calls : Option (List RawToolCall) := none
deriving DecidableEq, Repr

/-- One choice of a backend response. -/
structure Choice where
  message : Option MessageData := none
  delta : Option MessageData := none
deriving DecidableEq, Repr

/-- A raw backend response object: an optional usage record and an
optional list of choices (an absent choices attribute and a None value
behave alike under the hasattr-and-truthiness test of the source). -/
structure ResponseObj where
  usage : Option UsageData := none
  choices : Option (List Choice) := none
deriving DecidableEq, Repr

/-- The usage extraction at the top of _map_response_to_chunk: a truthy
usage attribute is mapped to an LLMUsage with getattr defaults of 0. -/
def extract_usage (resp : ResponseObj) : Option LLMUsage :=
  match resp.usage with
  | none => none
  | some u =>
    some { prompt_tokens := u.prompt_tokens.getD 0,
           completion_tokens := u.completion_tokens.getD 0 }

/-- The expression getattr message or getattr delta of
_map_response_to_chunk: message objects are truthy, so the first
present payload wins. -/
def pyOrMsg (a b : Option MessageData) : Option MessageData :=
  match a with
  | some m => some m
  | none => b

/-- The per-tool-call mapping inside _map_response_to_chunk. -/
def map_raw_tool_call (tc : RawToolCall) : ToolCall :=
  { id := tc.id,
    index := tc.index,
    function :=
      { name := match tc.function with | some f => f.name | none => none,
        arguments := match tc.function with | some f => f.arguments | none => none } }

/-- src/hacxgent/core/llm/backend/universal.py lines 88-132,
UniversalBackend._map_response_to_chunk; the only statement of the body
that can raise is the Role constructor on an unknown role string, which
the embedding records as Except.error. -/
def map_response_to_chunk (resp : ResponseObj) : Except String LLMChunk :=
  let usage := extract_usage resp
  match resp.choices with
  | some (choice :: _) =>
    (match pyOrMsg choice.message choice.delta with
     | none =>
       .ok { message := { role := Role.assistant, content := some "" }, usage := usage }
     | some md =>
       let role_str :=
         match md.role with
         | none => "assistant"
         | some s => if s = "" then "assistant" else s
       match Role.ofString role_str with
       | .error e => .error e
       | .ok role =>
         let tool_calls :=
           match md.tool_calls with
           | none => none
           | some [] => none
           | some tcs => some (tcs.map map_raw_tool_call)
         .ok { message :=
                 { role := role,
                   content := some (md.content.getD ""),
                   reasoning_content := pyOrStr md.reasoning_content md.thought,
                   tool_calls := tool_calls },
               usage := usage })
  | _ => .ok { message := { role := Role.assistant, content := some "" }, usage := usage }

/-- The maxsize argument of the queue.Queue() constructed by
complete_streaming: the call passes no argument, so the Python default
of 0 applies. -/
def stream_queue_maxsize : ℤ := 0

/-- Capacity of a Python queue.Queue for a given maxsize: a maxsize of
zero or less means an infinite queue (none), a positive maxsize bounds
the queue by that many items. -/
def queue_capacity (maxsize : ℤ) : Option Nat :=
  if maxsize ≤ 0 then none else some maxsize.toNat

/-- A queue is bounded exactly when its maxsize is positive. -/
def queue_is_bounded (maxsize : ℤ) : Prop := 0 < maxsize

instance : Decidable (queue_is_bounded stream_queue_maxsize) := by
  unfold queue_is_bounded stream_queue_maxsize
  infer_instance

/-- The capacity of the queue connecting the producer thread of
complete_streaming to its consumer loop. -/
def stream_queue_capacity : Option Nat := queue_capacity stream_queue_maxsize

/-- The sequence of entries the producer thread of complete_streaming
puts into the queue: every raw stream item in network order, then the
exception object when the stream ended with one. -/
def producer_entries (raws : List ResponseObj) (failure : Option String) :
    List (ResponseObj ⊕ String) :=
  raws.map Sum.inl ++ (match failure with | none => [] | some e => [Sum.inr e])

/-- How the consumer loop ends when it does not drain the whole queue:
by re-raising the exception the producer queued, or by an exception of
the chunk mapping itself. -/
inductive StreamFailure where
  | producer (e : String)
  | mapping (e : String)
deriving DecidableEq, Repr

/-- The consumer loop of complete_streaming lines 209-217 over the
linearised queue contents: each raw item is mapped and yielded in queue
order, an exception entry is raised, and a mapping error aborts the
generator at that point. -/
def consume_entries : List (ResponseObj ⊕ String) → List LLMChunk × Option StreamFailure
  | [] => ([], none)
  | Sum.inr e :: _ => ([], some (StreamFailure.producer e))
  | Sum.inl r :: rest =>
    match map_response_to_chunk r with
    | .error m => ([], some (StreamFailure.mapping m))
    | .ok c =>
      let p := consume_entries rest
      (c :: p.1, p.2)

/-- The serialised form of one prepared tool call in _prepare_messages. -/
structure PreparedToolCall where
  id : Option String := none
  name : Option String := none
  arguments : Option String := none
deriving DecidableEq, Repr

/-- One entry of the message list sent to the client API, as built by
_prepare_messages. -/
structure PreparedMessage where
  role : String
  content : String
  tool_calls : Option (List PreparedToolCall) := none
  tool_call_id : Option String := none
  name : Option String := none
deriving DecidableEq, Repr

/-- src/hacxgent/core/llm/backend/universal.py lines 58-81,
UniversalBackend._prepare_messages. -/
def prepare_messages (messages : List LLMMessage) : List PreparedMessage :=
  messages.map fun msg =>
    let base : PreparedMessage :=
      { role := msg.role.value, content := msg.content.getD "" }
    match msg.role with
    | Role.assistant =>
      (match msg.tool_calls with
       | none => base
       | some [] => base
       | some tcs =>
         { base with tool_calls := some (tcs.map fun tc =>
             { id := tc.id,
               name := tc.function.name,
               arguments := tc.function.arguments }) })
    | Role.tool =>
      { base with tool_call_id := msg.tool_call_id, name := msg.name }
    | _ => base

/-- src/hacxgent/core/llm/backend/universal.py lines 219-233,
UniversalBackend.count_tokens. Modelled from the spec for the two
collaborators that are not under the sources: the approximate counter
count_messages_tokens_approx of the API module is an optional fallible
function (none when the import fails), and the Python string rendering
len(str(messages)) is the length of an externally supplied rendering
function. The try block turns every failure into the fixed
four-characters-per-token estimate. -/
def count_tokens (approx : Option (List PreparedMessage → Except String Nat))
    (strOfMessages : List LLMMessage → String) (messages : List LLMMessage) : Nat :=
  match approx with
  | none => (strOfMessages messages).length / 4
  | some f =>
    match f (prepare_messages messages) with
    | .ok n => n
    | .error _ => (strOfMessages messages).length / 4

/-- src/hacxgent/core/llm/backend/universal.py lines 27-44,
UniversalBackend: the fields assigned in the body of the init method,
plus the per-instance slot that the assignment on line 56 creates for
the last request time. Wall-clock times are rationals. -/
structure UniversalBackend where
  provider : ProviderConfig
  timeout : ℚ := 720
  client : Option Nat := none
  last_request_time_inst : Option ℚ := none
deriving DecidableEq, Repr

/-- The class-level default of _last_request_time (line 28): the value
every instance reads before its first request. -/
def universal_backend_class_last_request_time : ℚ := 0

/-- Python attribute lookup for self dot _last_request_time: the
instance slot when a request already wrote it, otherwise the class
attribute. -/
def UniversalBackend.last_request_time (b : UniversalBackend) : ℚ :=
  b.last_request_time_inst.getD universal_backend_class_last_request_time

/-- The identifier of the single asyncio.Lock() object created when the
class body of UniversalBackend executes (line 29). -/
def universal_backend_class_lock : Nat := 0

/-- Python attribute lookup for self dot _request_lock: no method of
the class ever assigns an instance attribute of that name, so the
lookup always falls through to the one class-level lock object. -/
def UniversalBackend.request_lock (_ : UniversalBackend) : Nat :=
  universal_backend_class_lock

/-- src/hacxgent/core/llm/backend/universal.py lines 46-56,
UniversalBackend._apply_rate_limit, for one call holding the lock. The
two time.time() readings are the parameters t1 (line 52) and t2 (line
56); the function returns the duration passed to asyncio.sleep (zero
when no sleep happens) and the instance as the call leaves it. -/
def UniversalBackend.apply_rate_limit (b : UniversalBackend) (model : ModelConfig)
    (t1 t2 : ℚ) : ℚ × UniversalBackend :=
  if model.rate_limit_rpm ≤ 0 then (0, b)
  else
    let interval : ℚ := 60 / (model.rate_limit_rpm : ℚ)
    let elapsed := t1 - b.last_request_time
    let sleepFor := if elapsed < interval then interval - elapsed else 0
    (sleepFor, { b with last_request_time_inst := some t2 })

/-- Sequential calls of _apply_rate_limit on one instance: each list
entry is the pair of clock readings of one call. -/
def UniversalBackend.run_rate_limit (model : ModelConfig) :
    UniversalBackend → List (ℚ × ℚ) → UniversalBackend
  | b, [] => b
  | b, (t1, t2) :: rest =>
    UniversalBackend.run_rate_limit model (b.apply_rate_limit model t1 t2).2 rest

/-- Physical adequacy of the clock readings of a sequence of calls: the
reading taken after asyncio.sleep is at least the reading taken before
it plus the requested sleep duration (the clock is monotone and sleep
lasts at least as long as asked). -/
def ValidClock (model : ModelConfig) : UniversalBackend → List (ℚ × ℚ) → Prop
  | _, [] => True
  | b, (t1, t2) :: rest =>
    t1 + (b.apply_rate_limit model t1 t2).1 ≤ t2 ∧
      ValidClock model (b.apply_rate_limit model t1 t2).2 rest

/-! ## Built-in tools (src/hacxgent/core/tools/builtins) -/

/-- A raised ToolError, carrying its message. -/
structure ToolError where
  message : String
deriving DecidableEq, Repr

/-- One item an async tool generator can yield: a progress event
(ToolStreamEvent, which none of the three tools below ever yields) or
the typed result object. -/
inductive ToolGenItem (R : Type) where
  | progress (tag : String)
  | result (r : R)
deriving DecidableEq, Repr

/-- The observable behaviour of one generator execution: the items
yielded in order, and the ToolError it raised afterwards, if any. -/
def GenRun (R : Type) : Type := List (ToolGenItem R) × Option ToolError

/-- Python list slicing l[a:b] with step one: negative ends count from
the back, ends are clamped to the list. -/
def pySliceNorm (n : ℤ) (i : ℤ) : ℤ :=
  if i < 0 then max 0 (n + i) else min i n

/-- Python list slice l[a:b]. -/
def pySlice {α : Type} (l : List α) (a b : ℤ) : List α :=
  let n : ℤ := l.length
  let s := pySliceNorm n a
  let e := pySliceNorm n b
  (l.drop s.toNat).take (e - s).toNat

/-- Python slice assignment l[a:b] = repl with step one: the elements
between the normalised bounds are removed and the replacement is
spliced in at the lower bound. -/
def pySliceAssign {α : Type} (l : List α) (a b : ℤ) (repl : List α) : List α :=
  let n : ℤ := l.length
  let s := pySliceNorm n a
  let e := pySliceNorm n b
  l.take s.toNat ++ repl ++ l.drop (max s e).toNat

/-- The line-break characters of Python str.splitlines. -/
def pyIsLineBreak (c : Char) : Bool :=
  c == '\n' || c == '\r' || c.val == 11 || c.val == 12 ||
  c.val == 28 || c.val == 29 || c.val == 30 || c.val == 133 ||
  c.val == 8232 || c.val == 8233

/-- The scanner of Python str.splitlines with keepends True: acc holds
the current line in reverse; a carriage return directly followed by a
line feed ends one line together with it. -/
def pySplitlinesAux : List Char → List Char → List String
  | [], acc => if acc = [] then [] else [String.mk acc.reverse]
  | '\r' :: '\n' :: rest, acc =>
    String.mk (acc.reverse ++ ['\r', '\n']) :: pySplitlinesAux rest []
  | c :: rest, acc =>
    if pyIsLineBreak c then String.mk (acc.reverse ++ [c]) :: pySplitlinesAux rest []
    else pySplitlinesAux rest (c :: acc)

/-- Python str.splitlines with keepends True. -/
def pySplitlinesKeepends (s : String) : List String := pySplitlinesAux s.toList []

/-- src/hacxgent/core/tools/builtins/list_directory.py, the argument
model (its path defaults to the current directory). -/
structure ListDirectoryArgs where
  path : String := "."
deriving DecidableEq, Repr

/-- One os.scandir entry with the stat fields the tool reads. -/
structure DirEntry where
  name : String
  is_dir : Bool
  st_size : ℤ
  st_mtime : ℚ
deriving DecidableEq, Repr

/-- src/hacxgent/core/tools/builtins/list_directory.py, FileInfo. -/
structure FileInfo where
  name : String
  type : String
  size : ℤ
  modified : ℚ
deriving DecidableEq, Repr

/-- src/hacxgent/core/tools/builtins/list_directory.py,
ListDirectoryResult. -/
structure ListDirectoryResult where
  path : String
  items : List FileInfo
deriving DecidableEq, Repr

/-- The filesystem surface ListDirectory.run touches: path resolution
(expanduser, joining the working directory and resolve), existence and
directory tests, and os.scandir, whose failure carries the rendered
exception text. -/
structure ListDirEnv where
  resolve : String → String
  pathExists : String → Bool
  isDir : String → Bool
  scandir : String → Except String (List DirEntry)

/-- src/hacxgent/core/tools/builtins/list_directory.py lines 82-111,
ListDirectory.run, traced as the list of yielded items plus the raised
ToolError, if any. -/
def ListDirectory.run (args : ListDirectoryArgs) (env : ListDirEnv) :
    GenRun ListDirectoryResult :=
  let path := env.resolve args.path
  if ¬ env.pathExists path then
    ([], some { message := "Directory not found: " ++ args.path })
  else if ¬ env.isDir path then
    ([], some { message := "Path is not a directory: " ++ args.path })
  else
    match env.scandir path with
    | .error e => ([], some { message := "Error listing directory: " ++ e })
    | .ok entries =>
      let items := entries.map fun en =>
        { name := en.name,
          type := if en.is_dir then "directory" else "file",
          size := en.st_size,
          modified := en.st_mtime : FileInfo }
      ([ToolGenItem.result { path := path, items := items }], none)

/-- src/hacxgent/core/tools/builtins/read_lines.py, the argument
model. -/
structure ReadLinesArgs where
  file_path : String
  start_line : ℤ := 1
  end_line : ℤ
deriving DecidableEq, Repr

/-- src/hacxgent/core/tools/builtins/read_lines.py, ReadLinesResult. -/
structure ReadLinesResult where
  file_path : String
  content : String
  lines_read : ℤ
  total_lines : ℤ
deriving DecidableEq, Repr

/-- The filesystem surface ReadLines.run touches; readlines returns the
lines of the file with their endings kept, or the rendered text of a
reading exception. -/
structure ReadLinesEnv where
  resolve : String → String
  pathExists : String → Bool
  isFile : String → Bool
  readlines : String → Except String (List String)

/-- The sync_read closure of ReadLines.run (lines 96-121): any failure
inside it, including the max_read_bytes ToolError it raises itself, is
caught by its except clause and wrapped into a reading ToolError. -/
def ReadLines.sync_read (max_read_bytes : ℤ) (args : ReadLinesArgs)
    (path : String) (readResult : Except String (List String)) :
    Except ToolError ReadLinesResult :=
  match readResult with
  | .error e => .error { message := "Error reading lines: " ++ e }
  | .ok all_lines =>
    let total : ℤ := all_lines.length
    let startL := max 1 args.start_line
    let stopL := min total args.end_line
    if total < startL then
      .ok { file_path := path, content := "", lines_read := 0, total_lines := total }
    else
      let selected_lines := pySlice all_lines (startL - 1) stopL
      let content := String.join selected_lines
      if max_read_bytes < (content.utf8ByteSize : ℤ) then
        .error { message := "Error reading lines: " ++
          "Read operation exceeds max_read_bytes (" ++ toString max_read_bytes ++ ")" }
      else
        .ok { file_path := path, content := content,
              lines_read := selected_lines.length, total_lines := total }

/-- src/hacxgent/core/tools/builtins/read_lines.py lines 83-124,
ReadLines.run; max_read_bytes is the config field (default 64000). -/
def ReadLines.run (max_read_bytes : ℤ) (args : ReadLinesArgs) (env : ReadLinesEnv) :
    GenRun ReadLinesResult :=
  let path := env.resolve args.file_path
  if ¬ env.pathExists path then
    ([], some { message := "File not found: " ++ args.file_path })
  else if ¬ env.isFile path then
    ([], some { message := "Path is not a file: " ++ args.file_path })
  else
    match ReadLines.sync_read max_read_bytes args path (env.readlines path) with
    | .error e => ([], some e)
    | .ok r => ([ToolGenItem.result r], none)

/-- src/hacxgent/core/tools/builtins/replace_lines.py, the argument
model. -/
structure ReplaceLinesArgs where
  file_path : String
  start_line : ℤ
  end_line : ℤ
  new_content : String
deriving DecidableEq, Repr

/-- src/hacxgent/core/tools/builtins/replace_lines.py,
ReplaceLinesResult. -/
structure ReplaceLinesResult where
  file_path : String
  lines_replaced : ℤ
  new_total_lines : ℤ
deriving DecidableEq, Repr

/-- The filesystem surface ReplaceLines.run touches; read_text and
write_text carry rendered exception text on failure. -/
structure ReplaceLinesEnv where
  resolve : String → String
  pathExists : String → Bool
  isFile : String → Bool
  read_text : String → Except String String
  write_text : String → String → Except String Unit

/-- src/hacxgent/core/tools/builtins/replace_lines.py lines 79-131,
ReplaceLines.run. -/
def ReplaceLines.run (args : ReplaceLinesArgs) (env : ReplaceLinesEnv) :
    GenRun ReplaceLinesResult :=
  let path := env.resolve args.file_path
  if ¬ env.pathExists path then
    ([], some { message := "File not found: " ++ args.file_path })
  else if ¬ env.isFile path then
    ([], some { message := "Path is not a file: " ++ args.file_path })
  else
    match env.read_text path with
    | .error e => ([], some { message := "Error reading file: " ++ e })
    | .ok content =>
      let lines := pySplitlinesKeepends content
      let total_lines : ℤ := lines.length
      if args.start_line < 1 ∨ total_lines < args.start_line then
        ([], some { message := "Invalid start_line: " ++ toString args.start_line ++
          " (total lines: " ++ toString total_lines ++ ")" })
      else if args.end_line < args.start_line then
        ([], some { message := "Invalid end_line: " ++ toString args.end_line ++
          " (must be >= start_line)" })
      else
        let end_line := if total_lines < args.end_line then total_lines else args.end_line
        let start_idx := args.start_line - 1
        let end_idx := end_line
        let new_lines_str :=
          if ¬ args.new_content.endsWith "\n" ∧
             (end_idx < total_lines ∨ (lines.getLastD "").endsWith "\n") then
            args.new_content ++ "\n"
          else args.new_content
        let newLines := pySliceAssign lines start_idx end_idx [new_lines_str]
        match env.write_text path (String.join newLines) with
        | .error e => ([], some { message := "Error writing to file: " ++ e })
        | .ok _ =>
          ([ToolGenItem.result
              { file_path := path,
                lines_replaced := end_line - args.start_line + 1,
                new_total_lines := newLines.length }], none)

/-! ## CLI session pre-seeding (src/hacxgent/cli/cli.py) -/

/-- src/hacxgent/cli/cli.py lines 120-125,
_load_messages_from_previous_session: the conversation of the agent
loop is extended with the non-system messages of the loaded session. -/
def load_messages_from_previous_session
    (conversation loaded : List LLMMessage) : List LLMMessage :=
  conversation ++ loaded.filter (fun msg => msg.role != Role.system)

/-! ## Theorems -/

/-- Helper: the first element surviving dropWhile fails the predicate. -/
theorem dropWhile_head_not {α : Type} (p : α → Bool) (l : List α) :
    ∀ c, (l.dropWhile p).head? = some c → p c = false := by
  induction l with
  | nil => intro c h; simp [List.dropWhile] at h
  | cons a l ih =>
    intro c h
    by_cases pa : p a
    · rw [List.dropWhile_cons_of_pos pa] at h
      exact ih c h
    · rw [List.dropWhile_cons_of_neg pa] at h
      simp at h
      subst h
      exact Bool.eq_false_iff.mpr pa

/-- Helper: stripping from the right is a prefix of the original. -/
theorem rstrip_front_part {α : Type} (p : α → Bool) (l : List α) :
    (l.reverse.dropWhile p).reverse <+: l := by
  have h := List.dropWhile_suffix (l := l.reverse) p
  have h2 := List.reverse_prefix.mpr h
  simpa using h2

/-- Helper: the last element surviving a right strip fails the
predicate. -/
theorem rstrip_getLast_not {α : Type} (p : α → Bool) (l : List α) :
    ∀ c, ((l.reverse.dropWhile p).reverse).getLast? = some c → p c = false := by
  intro c h
  rw [List.getLast?_reverse] at h
  exact dropWhile_head_not p l.reverse c h

/-- Helper: the head of a prefix is the head of the longer list. -/
theorem head_of_prefix {α : Type} {l1 l2 : List α} (h : l1 <+: l2) :
    ∀ c, l1.head? = some c → l2.head? = some c := by
  intro c hc
  obtain ⟨t, ht⟩ := h
  subst ht
  rw [List.head?_append, hc]
  rfl

/-- C8 (amended). Every name surviving MCP-server validation is
normalized by normalize_name; the result contains only characters from
the class a-z, A-Z, 0-9, underscore, hyphen; it never begins with an
underscore or hyphen; whenever the stripped name already fits in 256
characters it does not end with one either; it is at most 256
characters long; and a name consisting only of excluded characters
normalizes to the empty string. (The truncation to 256 characters runs
after the strip, so an overlong name can keep a trailing underscore or
hyphen; the counterexample shows one.) -/
theorem normalize_name_spec (v : String) :
    (∀ c ∈ (normalize_name v).toList, isWordChar c = true) ∧
    (∀ c, (normalize_name v).toList.head? = some c → isStripSet c = false) ∧
    ((pyStripUnderscoreHyphen (reSubNonWord v)).toList.length ≤ 256 →
      ∀ c, (normalize_name v).toList.getLast? = some c → isStripSet c = false) ∧
    (normalize_name v).length ≤ 256 ∧
    ((∀ c ∈ v.toList, isWordChar c = false) → normalize_name v = "") := by
  have hnorm : (normalize_name v).toList =
      ((((reSubNonWord v).toList.dropWhile isStripSet).reverse.dropWhile
        isStripSet).reverse).take 256 := by
    simp [normalize_name, pyStripUnderscoreHyphen]
  refine ⟨?_, ?_, ?_, ?_, ?_⟩
  · intro c hc
    rw [hnorm] at hc
    have hc2 := (List.take_sublist _ _).mem hc
    have hc3 := (rstrip_front_part isStripSet _).sublist.mem hc2
    have hc4 := (List.dropWhile_sublist _).mem hc3
    simp only [reSubNonWord, String.toList] at hc4
    rcases List.mem_map.mp hc4 with ⟨a, _, ha⟩
    by_cases hw : isWordChar a
    · rw [← ha]; simp [hw]
    · rw [← ha]; simp [hw]; decide
  · intro c hc
    rw [hnorm] at hc
    have h256 : (0 : Nat) < 256 := by decide
    have hhead : ((((reSubNonWord v).toList.dropWhile isStripSet).reverse.dropWhile
        isStripSet).reverse).head? = some c := by
      rcases hl : (((reSubNonWord v).toList.dropWhile isStripSet).reverse.dropWhile
        isStripSet).reverse with _ | ⟨a, l⟩
      · rw [hl] at hc; simp at hc
      · rw [hl] at hc; simp at hc ⊢; simpa using hc
    have hfull := head_of_prefix (rstrip_front_part isStripSet _) c hhead
    exact dropWhile_head_not isStripSet _ c hfull
  · intro hlen c hc
    rw [hnorm, List.take_of_length_le (by simpa [pyStripUnderscoreHyphen] using hlen)] at hc
    exact rstrip_getLast_not isStripSet _ c hc
  · have hlen : (normalize_name v).length =
        ((pyStripUnderscoreHyphen (reSubNonWord v)).toList.take 256).length := rfl
    rw [hlen, List.length_take]
    exact min_le_left _ _
  · intro hall
    have hsub : ∀ c ∈ (reSubNonWord v).toList, isStripSet c = true := by
      intro c hc
      simp only [reSubNonWord, String.toList] at hc
      rcases List.mem_map.mp hc with ⟨a, ha, hfa⟩
      rw [hall a ha] at hfa
      simp at hfa
      rw [← hfa]
      decide
    have hdrop : List.dropWhile isStripSet (reSubNonWord v).data = [] :=
      List.dropWhile_eq_nil_iff.mpr (fun c hc => hsub c hc)
    simp [normalize_name, pyStripUnderscoreHyphen, String.toList, hdrop]

/-- C8 counterexample input: 255 letters, a hyphen, one more letter -
257 characters that the substitution and the strip leave unchanged, so
the truncation to 256 cuts right after the hyphen. -/
def overlongMCPName : String := String.mk (List.replicate 255 'a' ++ ['-', 'a'])

/-- C8 counterexample: the validated name ends with a hyphen, refuting
the claim that a normalized name never ends with an underscore or
hyphen. -/
theorem normalize_name_trailing_hyphen :
    (normalize_name overlongMCPName).toList.getLast? = some '-' := by decide

/-- C8 witness: a name of only excluded characters normalizes to the
empty string. -/
theorem normalize_name_witness : normalize_name "!!!" = "" :=
  (normalize_name_spec "!!!").2.2.2.2 (by decide)

/-- C7. get_active_model errs exactly when the models list is empty or
a non-empty active_model matches no alias; with an empty active_model
it returns the first model, and with a matching active_model it
returns a model carrying that alias. -/
theorem get_active_model_spec (active_model : String) (models : List ModelConfig) :
    ((∃ e, get_active_model active_model models = .error e) ↔
      (models = [] ∨ (active_model ≠ "" ∧ ∀ m ∈ models, m.«alias» ≠ active_model))) ∧
    (active_model = "" → ∀ m rest, models = m :: rest →
      get_active_model active_model models = .ok m) ∧
    (active_model ≠ "" → ∀ m ∈ models, m.«alias» = active_model →
      ∃ m2, get_active_model active_model models = .ok m2 ∧
        m2.«alias» = active_model ∧ m2 ∈ models) := by
  refine ⟨?_, ?_, ?_⟩
  · by_cases ha : active_model = ""
    · subst ha
      simp only [get_active_model, if_pos rfl]
      rcases models with _ | ⟨m, rest⟩
      · simp
      · simp
    · rcases hf : models.find? (fun m => m.«alias» == active_model) with _ | m
      · have hnone := List.find?_eq_none.mp hf
        simp only [get_active_model, if_neg ha, hf]
        constructor
        · intro _
          by_cases hm : models = []
          · exact Or.inl hm
          · refine Or.inr ⟨ha, fun m hm2 => ?_⟩
            have := hnone m hm2
            simpa using this
        · intro _
          by_cases hm : models.isEmpty
          · rw [if_pos hm]
            exact ⟨_, rfl⟩
          · rw [if_neg hm]
            exact ⟨_, rfl⟩
      · have hp := List.find?_some hf
        have hmem := List.mem_of_find?_eq_some hf
        simp only [get_active_model, if_neg ha, hf]
        constructor
        · rintro ⟨e, he⟩
          exact absurd he (by simp)
        · rintro (hnil | ⟨_, hall⟩)
          · subst hnil; simp at hmem
          · exfalso
            exact hall m hmem (by simpa using hp)
  · intro ha m rest hm
    subst hm
    simp [get_active_model, ha]
  · intro ha m hm hal
    rcases hf : models.find? (fun m => m.«alias» == active_model) with _ | m2
    · exfalso
      have := List.find?_eq_none.mp hf m hm
      simp [hal] at this
    · refine ⟨m2, ?_, by simpa using List.find?_some hf, List.mem_of_find?_eq_some hf⟩
      simp only [get_active_model, if_neg ha, hf]

/-- C7 witness model list. -/
def modelsW : List ModelConfig := [{ name := "gpt", provider := "prov", «alias» := "main" }]

/-- C7 witness: a matching non-empty active alias is resolved to a
model with that alias. -/
theorem get_active_model_witness :
    ∃ m2, get_active_model "main" modelsW = .ok m2 ∧
      m2.«alias» = "main" ∧ m2 ∈ modelsW := by
  refine (get_active_model_spec "main" modelsW).2.2 (by decide)
    { name := "gpt", provider := "prov", «alias» := "main" } ?_ rfl
  simp [modelsW]

/-- Helper: the alias walk accepts exactly the lists whose aliases are
pairwise distinct and all avoid the already-seen set. -/
theorem check_alias_uniqueness_ok_iff (models : List ModelConfig) (seen : List String) :
    check_alias_uniqueness models seen = .ok () ↔
      ((models.map (fun m => m.«alias»)).Nodup ∧
        ∀ a ∈ models.map (fun m => m.«alias»), a ∉ seen) := by
  induction models generalizing seen with
  | nil => simp [check_alias_uniqueness]
  | cons m rest ih =>
    by_cases h : m.«alias» ∈ seen
    · rw [check_alias_uniqueness, if_pos h]
      constructor
      · intro hfalse; exact absurd hfalse (by simp)
      · rintro ⟨_, hall⟩
        exact absurd h (hall m.«alias» (by simp))
    · rw [check_alias_uniqueness, if_neg h, ih (m.«alias» :: seen)]
      constructor
      · rintro ⟨hnodup, hall⟩
        have hmna : m.«alias» ∉ rest.map (fun m => m.«alias») := by
          intro hmem
          exact (hall m.«alias» hmem) (by simp)
        refine ⟨List.nodup_cons.mpr ⟨by simpa using hmna, hnodup⟩, ?_⟩
        intro a ha
        rcases List.mem_cons.mp ha with rfl | ha2
        · exact h
        · intro hseen
          exact (hall a ha2) (List.mem_cons.mpr (Or.inr hseen))
      · rintro ⟨hnodupc, hall⟩
        have hmna := (List.nodup_cons.mp hnodupc).1
        refine ⟨(List.nodup_cons.mp hnodupc).2, ?_⟩
        intro a ha hmem
        rcases List.mem_cons.mp hmem with rfl | hseen
        · exact hmna ha
        · exact (hall a (List.mem_cons.mpr (Or.inr ha))) hseen

/-- Helper: a failing alias walk fails with the duplicate message of an
alias of the list, and that alias was seen before or occurs at least
twice in the list. -/
theorem check_alias_uniqueness_error (models : List ModelConfig) (seen : List String)
    (s : String) (h : check_alias_uniqueness models seen = .error s) :
    ∃ a, s = duplicate_alias_message a ∧ a ∈ models.map (fun m => m.«alias») ∧
      (a ∈ seen ∨ 2 ≤ (models.map (fun m => m.«alias»)).count a) := by
  induction models generalizing seen with
  | nil => rw [check_alias_uniqueness] at h; exact absurd h (by simp)
  | cons m rest ih =>
    by_cases hm : m.«alias» ∈ seen
    · rw [check_alias_uniqueness, if_pos hm] at h
      refine ⟨m.«alias», by simpa using h.symm, by simp, Or.inl hm⟩
    · rw [check_alias_uniqueness, if_neg hm] at h
      obtain ⟨a, hs, hmem, hor⟩ := ih (m.«alias» :: seen) h
      refine ⟨a, hs, List.mem_cons.mpr (Or.inr hmem), ?_⟩
      rcases hor with hseen | hcount
      · rcases List.mem_cons.mp hseen with heq | hseen2
        · right
          have h1 : 0 < (rest.map (fun m => m.«alias»)).count a :=
            List.count_pos_iff.mpr hmem
          have h2 : (List.map (fun m => m.«alias») (m :: rest)).count a =
              (rest.map (fun m => m.«alias»)).count a + 1 := by
            rw [List.map_cons, List.count_cons]
            simp [heq]
          omega
        · exact Or.inl hseen2
      · right
        have h2 : (rest.map (fun m => m.«alias»)).count a ≤
            (List.map (fun m => m.«alias») (m :: rest)).count a := by
          rw [List.map_cons]
          exact List.count_le_count_cons a _ _
        omega

/-- C9. A configuration validates exactly when the (defaulted) model
aliases are pairwise distinct; a failing validation reports the
duplicate-alias message of an alias occurring at least twice; and the
before-validator gives every model without an alias its own name as
alias (an explicit alias is kept). -/
theorem model_alias_uniqueness_spec (models : List ModelConfig) :
    (validate_model_uniqueness models = .ok () ↔
      (models.map (fun m => m.«alias»)).Nodup) ∧
    (¬ (models.map (fun m => m.«alias»)).Nodup →
      ∃ a, 2 ≤ (models.map (fun m => m.«alias»)).count a ∧
        validate_model_uniqueness models = .error (duplicate_alias_message a)) ∧
    (∀ d : RawModelData, d.«alias» = none →
      (default_alias_to_name d).«alias» = some d.name) ∧
    (∀ d : RawModelData, ∀ a, d.«alias» = some a →
      (default_alias_to_name d).«alias» = some a) := by
  have hiff : validate_model_uniqueness models = .ok () ↔
      (models.map (fun m => m.«alias»)).Nodup := by
    rw [validate_model_uniqueness, check_alias_uniqueness_ok_iff]
    simp
  refine ⟨hiff, ?_, ?_, ?_⟩
  · intro hnod
    have hne : validate_model_uniqueness models ≠ .ok () := fun hok => hnod (hiff.mp hok)
    rcases hval : validate_model_uniqueness models with s | u
    · obtain ⟨a, hs, _, hor⟩ := check_alias_uniqueness_error models [] s hval
      subst hs
      rcases hor with hfalse | hcount
      · exact absurd hfalse (by simp)
      · exact ⟨a, hcount, rfl⟩
    · cases u
      exact absurd hval hne
  · intro d hd
    simp [default_alias_to_name, hd]
  · intro d a hd
    simp [default_alias_to_name, hd]

/-- C9 witness model list: two models sharing the alias x. -/
def modelsDup : List ModelConfig :=
  [{ name := "m1", provider := "p", «alias» := "x" },
   { name := "m2", provider := "p", «alias» := "x" }]

/-- C9 witness: the duplicated alias list is rejected with the
duplicate-alias message. -/
theorem model_alias_uniqueness_witness :
    ∃ a, 2 ≤ (modelsDup.map (fun m => m.«alias»)).count a ∧
      validate_model_uniqueness modelsDup = .error (duplicate_alias_message a) :=
  (model_alias_uniqueness_spec modelsDup).2.1 (by decide)

/-- C10. Pre-seeding a loop from a resumed session appends to the
conversation exactly the loaded messages whose role is not system, as a
subsequence of the loaded list (original order, nothing altered): the
old conversation is an unchanged prefix, the appended suffix is a
sublist of the loaded messages containing no system message, every
non-system message keeps its multiplicity, and every system message is
dropped. -/
theorem load_previous_session_spec (conversation loaded : List LLMMessage) :
    conversation <+: load_messages_from_previous_session conversation loaded ∧
    ((load_messages_from_previous_session conversation loaded).drop
      conversation.length).Sublist loaded ∧
    (∀ msg ∈ (load_messages_from_previous_session conversation loaded).drop
      conversation.length, msg.role ≠ Role.system) ∧
    (∀ msg : LLMMessage, msg.role ≠ Role.system →
      ((load_messages_from_previous_session conversation loaded).drop
        conversation.length).count msg = loaded.count msg) ∧
    (∀ msg : LLMMessage, msg.role = Role.system →
      ((load_messages_from_previous_session conversation loaded).drop
        conversation.length).count msg = 0) := by
  have hdrop : (load_messages_from_previous_session conversation loaded).drop
      conversation.length = loaded.filter (fun msg => msg.role != Role.system) := by
    rw [load_messages_from_previous_session, List.drop_left]
  refine ⟨List.prefix_append _ _, ?_, ?_, ?_, ?_⟩
  · rw [hdrop]; exact List.filter_sublist _
  · intro msg hm
    rw [hdrop] at hm
    have := (List.mem_filter.mp hm).2
    simpa using this
  · intro msg h
    rw [hdrop]
    exact List.count_filter (by simpa using h)
  · intro msg h
    rw [hdrop]
    rw [List.count_eq_zero]
    intro hmem
    have := (List.mem_filter.mp hmem).2
    simp [h] at this

/-- C10 witness system message. -/
def sysMsgW : LLMMessage := { role := Role.system, content := some "sys" }

/-- C10 witness user message. -/
def userMsgW : LLMMessage := { role := Role.user, content := some "hello" }

/-- C10 witness: on a concrete resumed session the user message keeps
its multiplicity and the system message is dropped. -/
theorem load_previous_session_witness :
    ((load_messages_from_previous_session [] [sysMsgW, userMsgW]).drop
      (List.length ([] : List LLMMessage))).count userMsgW =
      [sysMsgW, userMsgW].count userMsgW ∧
    ((load_messages_from_previous_session [] [sysMsgW, userMsgW]).drop
      (List.length ([] : List LLMMessage))).count sysMsgW = 0 :=
  ⟨(load_previous_session_spec [] [sysMsgW, userMsgW]).2.2.2.1 userMsgW (by decide),
   (load_previous_session_spec [] [sysMsgW, userMsgW]).2.2.2.2 sysMsgW (by decide)⟩

/-- What it means for one traced generator execution to satisfy the
tool contract: an aborted run raised its single ToolError before
yielding anything, and a completed run yielded exactly one item, the
typed result. -/
def YieldsOneResult {R : Type} (g : GenRun R) : Prop :=
  match g with
  | (items, some _) => items = []
  | (items, none) => ∃ r, items = [ToolGenItem.result r]

/-- C3. Each of the three built-in run generators, on every argument
value and every filesystem behaviour, either raises exactly one
ToolError and yields nothing, or yields exactly one typed Result object
as its only (hence terminal) item - never both. -/
theorem builtin_run_single_result :
    (∀ (args : ListDirectoryArgs) (env : ListDirEnv),
      YieldsOneResult (ListDirectory.run args env)) ∧
    (∀ (max_read_bytes : ℤ) (args : ReadLinesArgs) (env : ReadLinesEnv),
      YieldsOneResult (ReadLines.run max_read_bytes args env)) ∧
    (∀ (args : ReplaceLinesArgs) (env : ReplaceLinesEnv),
      YieldsOneResult (ReplaceLines.run args env)) := by
  refine ⟨?_, ?_, ?_⟩
  · intro args env
    rw [ListDirectory.run]
    repeat' split
    all_goals first
      | exact rfl
      | exact ⟨_, rfl⟩
  · intro max_read_bytes args env
    rw [ReadLines.run]
    repeat' split
    all_goals first
      | exact rfl
      | exact ⟨_, rfl⟩
  · intro args env
    rw [ReplaceLines.run]
    repeat' split
    all_goals try dsimp only
    all_goals try split_ifs
    all_goals repeat' split
    all_goals first
      | exact rfl
      | exact ⟨_, rfl⟩

/-- C5. On every response of malformed shape - no choices attribute, an
empty choices list, or a first choice carrying neither a message nor a
delta - _map_response_to_chunk raises nothing and returns a chunk whose
message is an empty assistant message, while a present usage record is
still extracted with getattr defaults of zero. -/
theorem map_response_malformed (resp : ResponseObj)
    (h : resp.choices = none ∨ resp.choices = some [] ∨
      ∃ c cs, resp.choices = some (c :: cs) ∧ c.message = none ∧ c.delta = none) :
    map_response_to_chunk resp =
      .ok { message := { role := Role.assistant, content := some "" },
            usage := extract_usage resp } ∧
    (resp.usage = none → extract_usage resp = none) ∧
    (∀ u, resp.usage = some u → extract_usage resp =
      some { prompt_tokens := u.prompt_tokens.getD 0,
             completion_tokens := u.completion_tokens.getD 0 }) := by
  refine ⟨?_, ?_, ?_⟩
  · rcases h with h | h | ⟨c, cs, h, hmsg, hdelta⟩
    · simp [map_response_to_chunk, h]
    · simp [map_response_to_chunk, h]
    · simp [map_response_to_chunk, h, pyOrMsg, hmsg, hdelta]
  · intro hu; simp [extract_usage, hu]
  · intro u hu; simp [extract_usage, hu]

/-- C5 witness response: usage present, no choices attribute. -/
def malformedResp : ResponseObj :=
  { usage := some { prompt_tokens := some 3, completion_tokens := some 5 } }

/-- C5 witness: the concrete malformed response maps to an empty
assistant message with its usage extracted. -/
theorem map_response_malformed_witness :
    map_response_to_chunk malformedResp =
      .ok { message := { role := Role.assistant, content := some "" },
            usage := some { prompt_tokens := 3, completion_tokens := 5 } } := by
  have h := (map_response_malformed malformedResp (Or.inl rfl)).1
  simpa using h

/-- C6. count_tokens always returns a number (the embedding is a total
function because the try block catches every failure), and whenever the
approximate counter is unavailable (a failed import) or itself fails,
the result is the length of the Python string rendering of the message
list divided by four, rounding down. -/
theorem count_tokens_fallback (strOfMessages : List LLMMessage → String)
    (messages : List LLMMessage) :
    (count_tokens none strOfMessages messages =
      (strOfMessages messages).length / 4) ∧
    (∀ f e, f (prepare_messages messages) = .error e →
      count_tokens (some f) strOfMessages messages =
        (strOfMessages messages).length / 4) ∧
    (∀ approx, ∃ n : Nat, count_tokens approx strOfMessages messages = n) := by
  refine ⟨rfl, ?_, fun approx => ⟨_, rfl⟩⟩
  intro f e h
  simp [count_tokens, h]

/-- C6 witness: with an eight-character rendering and a failing
counter, the fallback returns two. -/
theorem count_tokens_fallback_witness :
    count_tokens (some fun _ => Except.error "boom") (fun _ => "12345678") [] = 2 := by
  have h := (count_tokens_fallback (fun _ => "12345678") []).2.1
    (fun _ => Except.error "boom") "boom" rfl
  simpa using h

/-- C2 counterexample: the queue connecting the producer thread of
complete_streaming to its consumer is constructed as queue.Queue() with
the default maxsize of zero, which Python defines as an infinite queue,
refuting the claim that the connecting queue is bounded. -/
theorem stream_queue_not_bounded :
    ¬ queue_is_bounded stream_queue_maxsize ∧ stream_queue_capacity = none :=
  ⟨by decide, rfl⟩

/-- C2 (amended). Over the linearised queue contents - the items the
producer put, in network order, followed by its terminal exception if
any - the consumer of complete_streaming yields exactly one mapped
chunk per stream item, in producer order, and re-raises the producer
exception only after every previously queued item has been yielded.
(The connecting queue is unbounded, not bounded; see the
counterexample.) -/
theorem complete_streaming_order (raws : List ResponseObj) (failure : Option String)
    (chunks : List LLMChunk)
    (h : raws.mapM map_response_to_chunk = Except.ok chunks) :
    consume_entries (producer_entries raws failure) =
      (chunks, failure.map StreamFailure.producer) := by
  induction raws generalizing chunks with
  | nil =>
    simp only [List.mapM_nil, pure, Except.pure] at h
    cases h
    rcases failure with _ | e
    · rfl
    · rfl
  | cons r rest ih =>
    rw [List.mapM_cons] at h
    rcases hr : map_response_to_chunk r with e | c
    · rw [hr] at h
      exact Except.noConfusion h
    · rw [hr] at h
      rcases hrest : rest.mapM map_response_to_chunk with e2 | cs
      · rw [hrest] at h
        exact Except.noConfusion h
      · rw [hrest] at h
        have h2 : Except.ok (c :: cs) = Except.ok chunks := h
        cases h2
        have hstep : producer_entries (r :: rest) failure =
            Sum.inl r :: producer_entries rest failure := by
          simp [producer_entries]
        rw [hstep]
        simp [consume_entries, hr, ih cs hrest]

/-- C2 witness message payload. -/
def msgDataA : MessageData := { role := some "assistant", content := some "hi" }

/-- C2 witness choice. -/
def choiceA : Choice := { message := some msgDataA }

/-- C2 witness response: one well-formed assistant message. -/
def respOkA : ResponseObj := { choices := some [choiceA] }

/-- C2 witness chunk: the mapped form of the witness response. -/
def chunkA : LLMChunk :=
  { message := { role := Role.assistant, content := some "hi" } }

/-- C2 witness: a one-item stream followed by a producer exception
yields the mapped chunk and then the exception. -/
theorem complete_streaming_order_witness :
    consume_entries (producer_entries [respOkA] (some "boom")) =
      ([chunkA], some (StreamFailure.producer "boom")) := by
  have hmap : List.mapM map_response_to_chunk [respOkA] = Except.ok [chunkA] := by
    rw [List.mapM_cons, List.mapM_nil]
    rfl
  exact complete_streaming_order [respOkA] (some "boom") [chunkA] hmap

/-- Helper: without a case-insensitive collision there is no exact-key
collision either, so the dict assignment appends. -/
theorem dictSet_append_of_no_ci (hdrs : List (String × String)) (target v : String)
    (h : hasHeaderCI hdrs target = false) :
    dictSet hdrs target v = hdrs ++ [(target, v)] := by
  rw [dictSet, if_neg]
  intro hany
  rcases List.any_eq_true.mp hany with ⟨p, hp, hkey⟩
  have hk : p.1 = target := by simpa using hkey
  have : hasHeaderCI hdrs target = true :=
    List.any_eq_true.mpr ⟨p, hp, by simp [hk]⟩
  rw [h] at this
  exact Bool.noConfusion this

/-- C4. http_headers returns the configured headers unchanged when no
usable token exists or when some configured header name equals the
target case-insensitively; otherwise it appends exactly one entry
mapping the target header (the stripped api_key_header, or
Authorization when that is empty) to the formatted credential, and with
the default template Bearer followed by the token placeholder the value
is the word Bearer, a space and the token. -/
theorem http_headers_spec (cfg : MCPHttpFields) (env : String → Option String) :
    (tokenLookup cfg env = none → http_headers cfg env = cfg.headers) ∧
    (hasHeaderCI cfg.headers (targetHeader cfg) = true →
      http_headers cfg env = cfg.headers) ∧
    (∀ token, tokenLookup cfg env = some token →
      hasHeaderCI cfg.headers (targetHeader cfg) = false →
      http_headers cfg env = cfg.headers ++
        [(targetHeader cfg, credential_value cfg.api_key_format token)]) ∧
    (∀ token, credential_value default_api_key_format token = "Bearer " ++ token) ∧
    (pyStrip cfg.api_key_header = "" → targetHeader cfg = "Authorization") := by
  refine ⟨?_, ?_, ?_, ?_, ?_⟩
  · intro h
    rw [http_headers, h]
  · intro h
    rw [http_headers]
    rcases htl : tokenLookup cfg env with _ | token
    · rfl
    · simp [h]
  · intro token htok hci
    rw [http_headers, htok]
    dsimp only
    rw [if_neg (by simp [hci])]
    exact dictSet_append_of_no_ci _ _ _ hci
  · intro token
    have hfmt : default_api_key_format ≠ "" := by decide
    have hlist : default_api_key_format.toList =
        'B' :: 'e' :: 'a' :: 'r' :: 'e' :: 'r' :: ' ' ::
        Char.ofNat 123 :: 't' :: 'o' :: 'k' :: 'e' :: 'n' :: [Char.ofNat 125] := by
      decide
    have htest : (pyFormatTokenAux token ('B' :: 'e' :: 'a' :: 'r' :: 'e' :: 'r' :: ' ' ::
        Char.ofNat 123 :: 't' :: 'o' :: 'k' :: 'e' :: 'n' ::
        [Char.ofNat 125])).map String.mk = some ("Bearer " ++ token) := by
      simp [pyFormatTokenAux]
      cases token with
      | mk data => rfl
    rw [credential_value]
    try dsimp only
    rw [if_neg hfmt, pyFormatToken, hlist, htest]
  · intro h
    rw [targetHeader]
    simp [h]

/-- C4 witness configuration: an unrelated header, a credential env
variable, default header name and template. -/
def httpCfgW : MCPHttpFields :=
  { url := "http://x.example", headers := [("X-Trace", "1")], api_key_env := "MY_KEY" }

/-- C4 witness environment: MY_KEY holds a token. -/
def envW : String → Option String :=
  fun s => if s = "MY_KEY" then some "sekret" else none

/-- C4 witness: on the concrete configuration the credential is
appended under Authorization with the Bearer template. -/
theorem http_headers_witness :
    http_headers httpCfgW envW = httpCfgW.headers ++
      [(targetHeader httpCfgW, credential_value httpCfgW.api_key_format "sekret")] ∧
    credential_value httpCfgW.api_key_format "sekret" = "Bearer sekret" := by
  constructor
  · exact (http_headers_spec httpCfgW envW).2.2.1 "sekret" rfl (by decide)
  · have h := (http_headers_spec httpCfgW envW).2.2.2.1 "sekret"
    simpa using h

/-- Helper: one rate-limited call records a time at least one interval
after the previously recorded time, and it records the second clock
reading. -/
theorem apply_rate_limit_spacing (b : UniversalBackend) (model : ModelConfig)
    (hr : 0 < model.rate_limit_rpm) (t1 t2 : ℚ)
    (h : t1 + (b.apply_rate_limit model t1 t2).1 ≤ t2) :
    b.last_request_time + 60 / (model.rate_limit_rpm : ℚ) ≤ t2 ∧
    ((b.apply_rate_limit model t1 t2).2).last_request_time = t2 := by
  have hneg : ¬ model.rate_limit_rpm ≤ 0 := not_le.mpr hr
  rw [UniversalBackend.apply_rate_limit, if_neg hneg] at h
  dsimp only at h
  constructor
  · by_cases hel : t1 - b.last_request_time < 60 / (model.rate_limit_rpm : ℚ)
    · rw [if_pos hel] at h
      linarith
    · rw [if_neg hel] at h
      push_neg at hel
      linarith
  · rw [UniversalBackend.apply_rate_limit, if_neg hneg]
    simp [UniversalBackend.last_request_time]

/-- Helper: along any physically valid sequence of calls on one
instance, the recorded completion time of the last call is at least the
first completion plus one interval per further call. -/
theorem run_rate_limit_spacing (model : ModelConfig) (hr : 0 < model.rate_limit_rpm) :
    ∀ (rest : List (ℚ × ℚ)) (b : UniversalBackend) (t1 t2 : ℚ),
      ValidClock model b ((t1, t2) :: rest) →
      ∃ lastPair, ((t1, t2) :: rest).getLast? = some lastPair ∧
        t2 + rest.length * (60 / (model.rate_limit_rpm : ℚ)) ≤ lastPair.2 := by
  intro rest
  induction rest with
  | nil =>
    intro b t1 t2 _
    exact ⟨(t1, t2), rfl, by simp⟩
  | cons pair rest2 ih =>
    rcases pair with ⟨u1, u2⟩
    intro b t1 t2 hvc
    rcases hvc with ⟨h1, hvc2⟩
    have hvc2head : u1 + (((b.apply_rate_limit model t1 t2).2).apply_rate_limit
        model u1 u2).1 ≤ u2 := hvc2.1
    have hspace1 := apply_rate_limit_spacing b model hr t1 t2 h1
    have hspace2 := apply_rate_limit_spacing ((b.apply_rate_limit model t1 t2).2)
      model hr u1 u2 hvc2head
    obtain ⟨lp, hlp, hbound⟩ := ih ((b.apply_rate_limit model t1 t2).2) u1 u2 hvc2
    refine ⟨lp, by rw [List.getLast?_cons_cons]; exact hlp, ?_⟩
    have hu2 : t2 + 60 / (model.rate_limit_rpm : ℚ) ≤ u2 := by
      rw [← hspace1.2]
      exact hspace2.1
    have hlen : ((rest2.length + 1 : Nat) : ℚ) = (rest2.length : ℚ) + 1 := by
      push_cast
      ring
    calc t2 + ((u1, u2) :: rest2).length * (60 / (model.rate_limit_rpm : ℚ))
        = t2 + ((rest2.length : ℚ) + 1) * (60 / (model.rate_limit_rpm : ℚ)) := by
          rw [List.length_cons, hlen]
      _ = (t2 + 60 / (model.rate_limit_rpm : ℚ)) +
            (rest2.length : ℚ) * (60 / (model.rate_limit_rpm : ℚ)) := by ring
      _ ≤ u2 + (rest2.length : ℚ) * (60 / (model.rate_limit_rpm : ℚ)) := by linarith
      _ ≤ lp.2 := hbound

/-- C1 (amended). For a model with positive rate_limit_rpm r,
_apply_rate_limit sleeps 60 divided by r minus the elapsed time since
the last recorded request whenever that elapsed time is smaller; the
last-request timestamp is effectively per instance (the write shadows
the class default), but the ordering lock is one class attribute shared
by every UniversalBackend instance (see the counterexample); and with
rate_limit_rpm equal to 60, any physically valid sequence of N
sequential calls on one instance finishes at least N minus one seconds
after the first call finishes. -/
theorem rate_limit_pacing_spec (model : ModelConfig) :
    (∀ (b : UniversalBackend) (t1 t2 : ℚ), 0 < model.rate_limit_rpm →
      t1 - b.last_request_time < 60 / (model.rate_limit_rpm : ℚ) →
      (b.apply_rate_limit model t1 t2).1 =
        60 / (model.rate_limit_rpm : ℚ) - (t1 - b.last_request_time)) ∧
    (∀ b1 b2 : UniversalBackend, b1.request_lock = b2.request_lock) ∧
    (model.rate_limit_rpm = 60 →
      ∀ (b : UniversalBackend) (t1 t2 : ℚ) (rest : List (ℚ × ℚ)),
        ValidClock model b ((t1, t2) :: rest) →
        ∃ lastPair, ((t1, t2) :: rest).getLast? = some lastPair ∧
          t2 + (rest.length : ℚ) ≤ lastPair.2) := by
  refine ⟨?_, fun b1 b2 => rfl, ?_⟩
  · intro b t1 t2 hr hel
    rw [UniversalBackend.apply_rate_limit, if_neg (not_le.mpr hr)]
    dsimp only
    rw [if_pos hel]
  · intro h60 b t1 t2 rest hvc
    have hr : (0 : ℤ) < model.rate_limit_rpm := by rw [h60]; decide
    obtain ⟨lp, hlp, hbound⟩ := run_rate_limit_spacing model hr rest b t1 t2 hvc
    refine ⟨lp, hlp, ?_⟩
    have : (model.rate_limit_rpm : ℚ) = 60 := by rw [h60]; norm_num
    rw [this] at hbound
    have h1 : (60 : ℚ) / 60 = 1 := by norm_num
    rw [h1, mul_one] at hbound
    exact hbound

/-- C1 counterexample instance A. -/
def backendA : UniversalBackend :=
  { provider := { name := "providerA", api_base := "http://a.example" } }

/-- C1 counterexample instance B. -/
def backendB : UniversalBackend :=
  { provider := { name := "providerB", api_base := "http://b.example" } }

/-- C1 counterexample: two distinct UniversalBackend instances resolve
self dot _request_lock to the same class-level lock object, refuting
the claim that pacing state is owned per instance and never shared
between distinct instances. -/
theorem backend_instances_share_lock :
    backendA ≠ backendB ∧ backendA.request_lock = backendB.request_lock := by
  constructor
  · intro h
    have : backendA.provider.name = backendB.provider.name := by rw [h]
    exact absurd this (by decide)
  · rfl

/-- C1 witness model: rate_limit_rpm of 60. -/
def model60 : ModelConfig :=
  { name := "m", provider := "p", «alias» := "m", rate_limit_rpm := 60 }

/-- C1 witness backend instance. -/
def backend0 : UniversalBackend :=
  { provider := { name := "p", api_base := "http://p.example" } }

/-- C1 witness: a fresh instance asked at time 0 sleeps one full
second, and a concrete valid three-call trace finishes at least two
seconds after the first call. -/
theorem rate_limit_pacing_witness :
    (backend0.apply_rate_limit model60 0 1).1 =
      60 / (model60.rate_limit_rpm : ℚ) - (0 - backend0.last_request_time) ∧
    ∃ lastPair, ([((0 : ℚ), (1 : ℚ)), (5, 6), (6, 7)]).getLast? = some lastPair ∧
      (1 : ℚ) + (([((5 : ℚ), (6 : ℚ)), (6, 7)]).length : ℚ) ≤ lastPair.2 := by
  constructor
  · refine (rate_limit_pacing_spec model60).1 backend0 0 1 (by decide) ?_
    show (0 : ℚ) - backend0.last_request_time < 60 / (model60.rate_limit_rpm : ℚ)
    norm_num [UniversalBackend.last_request_time, backend0,
      universal_backend_class_last_request_time, model60]
  · refine (rate_limit_pacing_spec model60).2.2 rfl backend0 0 1 [(5, 6), (6, 7)] ?_
    refine ⟨?_, ?_, ?_, trivial⟩
    · norm_num [UniversalBackend.apply_rate_limit, UniversalBackend.last_request_time,
        backend0, universal_backend_class_last_request_time, model60]
    · norm_num [UniversalBackend.apply_rate_limit, UniversalBackend.last_request_time,
        backend0, universal_backend_class_last_request_time, model60]
    · norm_num [UniversalBackend.apply_rate_limit, UniversalBackend.last_request_time,
        backend0, universal_backend_class_last_request_time, model60]

end Hacxgent
